import Mathlib

/-!
Verification of the pingo v2 HTTP client library (src/v2/pingo.go).

The development shallowly embeds the request lifecycle of the library:
the client/request configuration layer, the body-setting operations, the
timeout/cancellation plumbing of createRequest, the buffered (Do/DoCtx)
and streaming (DoStream) execution paths, and the response projections.

Go maps are reference values and pingo shares the header/query maps
between a client and the requests created from it, so map state lives in
an explicit store addressed by Nat references.  External collaborators
(the HTTP transport, the body encoders, io.ReadAll) are modelled by
their outcomes, passed in as environment parameters; resource events
(dispatching, invoking the retained cancel handle, reading and closing
the response body) are recorded in an event trace in program order.
-/

namespace Pingo

/-- Byte sequences: Go byte slices and buffer contents. -/
abbrev Bytes := List Nat

/-- Multi-valued string maps, the shape of Go net/http.Header and
net/url.Values (map from key to slice of values), as association lists. -/
abbrev HMap := List (String × List String)

/-- Values stored under a key; a missing key yields the empty list. -/
def HMap.getValues : HMap → String → List String
  | [], _ => []
  | (k', vs) :: rest, k => if k' = k then vs else HMap.getValues rest k

/-- First value under a key, or the empty string (Go Header.Get / Values.Get). -/
def HMap.get (m : HMap) (k : String) : String :=
  match HMap.getValues m k with
  | [] => ""
  | v :: _ => v

/-- Whether the key is present (Go map membership). -/
def HMap.hasKey : HMap → String → Bool
  | [], _ => false
  | (k', _) :: rest, k => if k' = k then true else HMap.hasKey rest k

/-- Delete a key (Go Header.Del / Values.Del). -/
def HMap.del : HMap → String → HMap
  | [], _ => []
  | (k', vs) :: rest, k =>
    if k' = k then HMap.del rest k else (k', vs) :: HMap.del rest k

/-- Replace-by-key update (Go Header.Set / Values.Set stores the
one-element slice for the key). -/
def HMap.set (m : HMap) (k v : String) : HMap :=
  HMap.del m k ++ [(k, [v])]

/-- Append-under-key update (Go Header.Add / Values.Add appends the value
to the slice already stored for the key). -/
def HMap.add (m : HMap) (k v : String) : HMap :=
  HMap.del m k ++ [(k, HMap.getValues m k ++ [v])]

/-- Keys are pairwise distinct, as in any Go map. -/
def HMap.KeysNodup (m : HMap) : Prop :=
  (m.map Prod.fst).Nodup

instance (m : HMap) : Decidable (HMap.KeysNodup m) := by
  unfold HMap.KeysNodup
  infer_instance

/-- A heap of mutable string-map cells.  Go maps are reference values and
the code shares them between client and request, so the maps live in an
explicit store and the structures hold references into it. -/
structure Store where
  size : Nat
  cells : Nat → HMap

/-- The empty heap. -/
def Store.empty : Store := { size := 0, cells := fun _ => [] }

/-- Read the map held in a cell. -/
def Store.read (s : Store) (ref : Nat) : HMap := s.cells ref

/-- Overwrite the map held in a cell (in-place Go map mutation). -/
def Store.write (s : Store) (ref : Nat) (m : HMap) : Store :=
  { s with cells := fun i => if i = ref then m else s.cells i }

/-- Allocate a fresh cell (Go make for a header/values map). -/
def Store.alloc (s : Store) (m : HMap) : Store × Nat :=
  ({ size := s.size + 1,
     cells := fun i => if i = s.size then m else s.cells i }, s.size)

/-- Go error values constructed or propagated by the embedded code. -/
inductive GoError where
  /-- the package-level sentinel ErrRequestTimedOut -/
  | requestTimedOut
  /-- context.Canceled, or any caller-supplied cancellation cause -/
  | ctxCanceled
  /-- an arbitrary transport-level failure returned by the underlying client -/
  | transportFailed (msg : String)
  /-- a body-encoding failure (json.Marshal, xml.Marshal, multipart writing) -/
  | marshalFailed (msg : String)
  /-- an error returned by a BodyCustom callback -/
  | customFailed (msg : String)
  /-- an io.ReadAll failure while draining a response body -/
  | readFailed (msg : String)
  /-- an http.NewRequestWithContext failure (malformed method or URL) -/
  | buildFailed (msg : String)
  /-- the error produced by response.IsError, carrying the response body -/
  | responseErr (body : Bytes)
  /-- the error built by fmt.Errorf with a verb chain ending in a wrapped
  cause: it carries the upper-cased method, the request URL and the cause -/
  | wrapped (method url : String) (cause : GoError)
deriving DecidableEq, Repr

/-- Model of errors.Is: an error matches the target if it equals it or
wraps an error matching it. -/
def GoError.is (e target : GoError) : Bool :=
  match e with
  | GoError.wrapped m u c => (GoError.wrapped m u c == target) || GoError.is c target
  | e' => e' == target

/-- Structural model of context.Context values as the code builds them:
context.Background(), an arbitrary caller-supplied context, or a scope
derived by context.WithTimeoutCause. -/
inductive GoCtx where
  | background
  | caller (id : Nat)
  | withTimeoutCause (parent : GoCtx) (timeout : Int) (cause : GoError)
deriving DecidableEq, Repr

/-- Observable resource events emitted by an execution, in program order. -/
inductive Event where
  /-- the outbound request was handed to the transport -/
  | dispatch
  /-- the retained context.CancelFunc was invoked -/
  | cancelCall
  /-- io.ReadAll drained the response body to completion -/
  | bodyReadOk
  /-- io.ReadAll failed while draining the response body -/
  | bodyReadFailed
  /-- the response body was closed -/
  | bodyClose
deriving DecidableEq, Repr

/-! Header and content-type constants of the package.  The literals are
already in textproto canonical form, so CanonicalMIMEHeaderKey is the
identity on them. -/

def headerContentType : String := "Content-Type"

def headerAccept : String := "Accept"

def headerCacheControl : String := "Cache-Control"

def headerConnection : String := "Connection"

def headerUserAgent : String := "User-Agent"

def ContentTypeJson : String := "application/json"

def ContentTypeXml : String := "application/xml"

def ContentTypeFormUrlEncoded : String := "application/x-www-form-urlencoded"

def ContentTypeTextEventStream : String := "text/event-stream"

def version : String := "v2.0.0"

def pingo : String := "pingo"

def pingoWithVersion : String := pingo ++ " " ++ version

def headerUserAgentDefaultValue : String :=
  pingoWithVersion ++ " (github.com/mauserzjeh/pingo)"

/-- The client struct.  The underlying http.Client and the logger are
external collaborators carrying no state the request lifecycle depends
on; headers and queryParams are references into the store. -/
structure GoClient where
  baseUrl : String
  debug : Bool
  debugBody : Bool
  headersRef : Nat
  queryParamsRef : Nat
  timeout : Int
  isLogEnabled : Bool

/-- newDefaultClient: fresh header/query maps, default User-Agent set. -/
def newDefaultClient (s : Store) : GoClient × Store :=
  let (s1, hRef) := Store.alloc s []
  let (s2, qRef) := Store.alloc s1 []
  let c : GoClient :=
    { baseUrl := "", debug := false, debugBody := false,
      headersRef := hRef, queryParamsRef := qRef, timeout := 0,
      isLogEnabled := true }
  let s3 := Store.write s2 hRef
    (HMap.set (Store.read s2 hRef) headerUserAgent headerUserAgentDefaultValue)
  (c, s3)

/-- NewClient creates a new client with the default settings. -/
def NewClient (s : Store) : GoClient × Store := newDefaultClient s

/-- client.SetBaseUrl. -/
def GoClient.SetBaseUrl (c : GoClient) (baseUrl : String) : GoClient :=
  { c with baseUrl := baseUrl }

/-- client.SetHeader mutates the shared headers map in place. -/
def GoClient.SetHeader (c : GoClient) (s : Store) (key value : String) :
    GoClient × Store :=
  (c, Store.write s c.headersRef (HMap.set (Store.read s c.headersRef) key value))

/-- client.AddHeader mutates the shared headers map in place. -/
def GoClient.AddHeader (c : GoClient) (s : Store) (key value : String) :
    GoClient × Store :=
  (c, Store.write s c.headersRef (HMap.add (Store.read s c.headersRef) key value))

/-- client.SetQueryParam mutates the shared query map in place. -/
def GoClient.SetQueryParam (c : GoClient) (s : Store) (key value : String) :
    GoClient × Store :=
  (c, Store.write s c.queryParamsRef
    (HMap.set (Store.read s c.queryParamsRef) key value))

/-- client.AddQueryParam mutates the shared query map in place. -/
def GoClient.AddQueryParam (c : GoClient) (s : Store) (key value : String) :
    GoClient × Store :=
  (c, Store.write s c.queryParamsRef
    (HMap.add (Store.read s c.queryParamsRef) key value))

/-- client.SetTimeout. -/
def GoClient.SetTimeout (c : GoClient) (timeout : Int) : GoClient :=
  { c with timeout := timeout }

/-- The request struct.  The cancel handle slot holds a unit token once
createRequest derives a bounded scope; ctx holds the context the request
was bound to once createRequest ran. -/
structure GoRequest where
  method : String
  baseUrl : String
  path : String
  headersRef : Nat
  queryParamsRef : Nat
  timeout : Int
  body : Option Bytes
  bodyErr : Option GoError
  cancel : Option Unit
  ctx : Option GoCtx
  debug : Bool
  debugBody : Bool
  isLogEnabled : Bool

/-- client.NewRequest.  The headers and queryParams fields of the source
copy the map references, not the maps, so the new request shares the
client's cells. -/
def GoClient.NewRequest (c : GoClient) : GoRequest :=
  { method := "GET", baseUrl := c.baseUrl, path := "",
    headersRef := c.headersRef, queryParamsRef := c.queryParamsRef,
    timeout := c.timeout, body := none, bodyErr := none,
    cancel := none, ctx := none,
    debug := c.debug, debugBody := c.debugBody, isLogEnabled := c.isLogEnabled }

/-- request.SetMethod: the empty string is a no-op. -/
def GoRequest.SetMethod (r : GoRequest) (method : String) : GoRequest :=
  if method ≠ "" then { r with method := method } else r

/-- request.SetBaseUrl. -/
def GoRequest.SetBaseUrl (r : GoRequest) (baseUrl : String) : GoRequest :=
  { r with baseUrl := baseUrl }

/-- request.SetPath. -/
def GoRequest.SetPath (r : GoRequest) (path : String) : GoRequest :=
  { r with path := path }

/-- request.SetHeader mutates the shared headers map in place. -/
def GoRequest.SetHeader (r : GoRequest) (s : Store) (key value : String) :
    GoRequest × Store :=
  (r, Store.write s r.headersRef (HMap.set (Store.read s r.headersRef) key value))

/-- request.AddHeader mutates the shared headers map in place. -/
def GoRequest.AddHeader (r : GoRequest) (s : Store) (key value : String) :
    GoRequest × Store :=
  (r, Store.write s r.headersRef (HMap.add (Store.read s r.headersRef) key value))

/-- request.SetQueryParam mutates the shared query map in place. -/
def GoRequest.SetQueryParam (r : GoRequest) (s : Store) (key value : String) :
    GoRequest × Store :=
  (r, Store.write s r.queryParamsRef
    (HMap.set (Store.read s r.queryParamsRef) key value))

/-- request.AddQueryParam mutates the shared query map in place. -/
def GoRequest.AddQueryParam (r : GoRequest) (s : Store) (key value : String) :
    GoRequest × Store :=
  (r, Store.write s r.queryParamsRef
    (HMap.add (Store.read s r.queryParamsRef) key value))

/-- request.SetTimeout. -/
def GoRequest.SetTimeout (r : GoRequest) (timeout : Int) : GoRequest :=
  { r with timeout := timeout }

/-- resetBody clears the stored body and the stored body error. -/
def GoRequest.resetBody (r : GoRequest) : GoRequest :=
  { r with body := none, bodyErr := none }

/-- BodyJson: reset, set Content-Type to application/json, then marshal.
The json.Marshal outcome of the external encoder is passed in. -/
def GoRequest.BodyJson (r : GoRequest) (s : Store)
    (marshalled : Except GoError Bytes) : GoRequest × Store :=
  let r1 := r.resetBody
  let (r2, s1) := r1.SetHeader s headerContentType ContentTypeJson
  match marshalled with
  | Except.error e => ({ r2 with bodyErr := some e }, s1)
  | Except.ok b => ({ r2 with body := some b }, s1)

/-- BodyXml: reset, set Content-Type to application/xml, then marshal.
The xml.Marshal outcome of the external encoder is passed in. -/
def GoRequest.BodyXml (r : GoRequest) (s : Store)
    (marshalled : Except GoError Bytes) : GoRequest × Store :=
  let r1 := r.resetBody
  let (r2, s1) := r1.SetHeader s headerContentType ContentTypeXml
  match marshalled with
  | Except.error e => ({ r2 with bodyErr := some e }, s1)
  | Except.ok b => ({ r2 with body := some b }, s1)

/-- BodyFormUrlEncoded: reset, set Content-Type, store the bytes of
data.Encode() (which cannot fail); the encoded form is passed in. -/
def GoRequest.BodyFormUrlEncoded (r : GoRequest) (s : Store)
    (encoded : Bytes) : GoRequest × Store :=
  let r1 := r.resetBody
  let (r2, s1) := r1.SetHeader s headerContentType ContentTypeFormUrlEncoded
  ({ r2 with body := some encoded }, s1)

/-- BodyCustom: reset, run the callback; no Content-Type is touched.
The callback outcome is passed in. -/
def GoRequest.BodyCustom (r : GoRequest) (s : Store)
    (callback : Except GoError Bytes) : GoRequest × Store :=
  let r1 := r.resetBody
  match callback with
  | Except.error e => ({ r1 with bodyErr := some e }, s)
  | Except.ok b => ({ r1 with body := some b }, s)

/-- BodyRaw: reset and store the raw bytes; no Content-Type is touched. -/
def GoRequest.BodyRaw (r : GoRequest) (s : Store) (data : Bytes) :
    GoRequest × Store :=
  let r1 := r.resetBody
  ({ r1 with body := some data }, s)

/-- BodyMultipartForm: reset, write all fields and files (outcome of the
external multipart writer passed in); on success store the bytes and set
Content-Type to the writer's form-data content type, on failure store
the error without touching the header. -/
def GoRequest.BodyMultipartForm (r : GoRequest) (s : Store)
    (written : Except GoError Bytes) (formDataContentType : String) :
    GoRequest × Store :=
  let r1 := r.resetBody
  match written with
  | Except.error e => ({ r1 with bodyErr := some e }, s)
  | Except.ok b =>
    let r2 := { r1 with body := some b }
    r2.SetHeader s headerContentType formDataContentType

/-- Model of strings.ToUpper: upper-case every character. -/
def goToUpper (s : String) : String := String.mk (s.data.map Char.toUpper)

/-- strings.TrimRight for the slash character. -/
def trimRightSlashes (s : String) : String :=
  String.mk ((s.data.reverse.dropWhile (fun c => c = '/')).reverse)

/-- strings.TrimLeft for the slash character. -/
def trimLeftSlashes (s : String) : String :=
  String.mk (s.data.dropWhile (fun c => c = '/'))

/-- requestUrl: base URL with trailing slashes trimmed, then a single
slash, then the path with leading slashes trimmed; either part is
omitted when empty. -/
def GoRequest.requestUrl (r : GoRequest) : String :=
  let baseUrl := trimRightSlashes r.baseUrl
  let path := trimLeftSlashes r.path
  if baseUrl = "" then path
  else if path = "" then baseUrl
  else baseUrl ++ "/" ++ path

/-- requestBody: a stored body error fails the request; a missing body is
http.NoBody (no bytes); otherwise the stored buffer is used. -/
def GoRequest.requestBody (r : GoRequest) : Except GoError Bytes :=
  match r.bodyErr with
  | some e => Except.error e
  | none =>
    match r.body with
    | none => Except.ok []
    | some b => Except.ok b

/-- Environment of createRequest: the query parsed from the outbound URL
by req.URL.Query(), and the outcome of http.NewRequestWithContext. -/
structure CreateReqEnv where
  urlQuery : HMap
  newReqErr : Option GoError
deriving Repr

/-- The outbound net/http.Request as configured by createRequest.  The
header field is the shared reference assigned by req.Header = r.headers. -/
structure OutboundRequest where
  method : String
  url : String
  headersRef : Nat
  rawQuery : HMap
  body : Bytes
  ctx : GoCtx
deriving Repr

/-- The query merge of createRequest: starting from req.URL.Query(), call
query.Set(k, v) for every value v of every request query parameter k,
producing the map encoded into req.URL.RawQuery. -/
def mergeQuery (urlQuery : HMap) (params : HMap) : HMap :=
  params.foldl (fun acc p => p.2.foldl (fun acc2 v => HMap.set acc2 p.1 v) acc) urlQuery

/-- createRequest: for a positive timeout, derive a bounded scope from
the supplied context via context.WithTimeoutCause with ErrRequestTimedOut
as the cause, retaining its cancel handle on the request; otherwise use
the supplied context unchanged.  Then build the outbound request, assign
the shared headers reference and merge the query parameters. -/
def GoRequest.createRequest (r : GoRequest) (s : Store) (ctx : GoCtx)
    (url : String) (body : Bytes) (env : CreateReqEnv) :
    Except GoError OutboundRequest × GoRequest :=
  let p :=
    if 0 < r.timeout then
      (GoCtx.withTimeoutCause ctx r.timeout GoError.requestTimedOut,
        { r with cancel := some () })
    else
      (ctx, r)
  let rctx := p.1
  let r1 := { p.2 with ctx := some rctx }
  match env.newReqErr with
  | some e => (Except.error e, r1)
  | none =>
    (Except.ok
      { method := r1.method, url := url, headersRef := r1.headersRef,
        rawQuery := mergeQuery env.urlQuery (Store.read s r1.queryParamsRef),
        body := body, ctx := rctx }, r1)

/-- The surface of a net/http.Response used by the code; the live body is
handled through the event trace and the read outcomes. -/
structure HttpResponse where
  status : String
  statusCode : Int
  headers : HMap
deriving DecidableEq, Repr

/-- Environment of the dispatch step: the transport outcome of the
underlying client, and the state of the request context observable in
the select statement when the transport fails (whether its Done channel
is closed and what context.Cause reports). -/
structure DoEnv where
  createEnv : CreateReqEnv
  outcome : Except GoError HttpResponse
  ctxDone : Bool
  ctxCause : GoError
deriving Repr

/-- do: build the URL, resolve the body (failing fast on a stored body
error), build the outbound request, dispatch, and on transport failure
reclassify by the request context: if the context is done the returned
error wraps context.Cause, otherwise the transport error is returned
unchanged. -/
def GoRequest.doInternal (r : GoRequest) (s : Store) (ctx : GoCtx)
    (env : DoEnv) : Except GoError HttpResponse × GoRequest × List Event :=
  let requestUrl := r.requestUrl
  match r.requestBody with
  | Except.error e => (Except.error e, r, [])
  | Except.ok requestBody =>
    match r.createRequest s ctx requestUrl requestBody env.createEnv with
    | (Except.error e, r1) => (Except.error e, r1, [])
    | (Except.ok _req, r1) =>
      match env.outcome with
      | Except.error e =>
        let e1 :=
          if env.ctxDone then
            GoError.wrapped (goToUpper r1.method) requestUrl env.ctxCause
          else e
        (Except.error e1, r1, [Event.dispatch])
      | Except.ok resp => (Except.ok resp, r1, [Event.dispatch])

/-- responseHeader: status line, numeric code and headers of a response. -/
structure ResponseHeader where
  status : String
  statusCode : Int
  headers : HMap
deriving DecidableEq, Repr

/-- response: a fully buffered response. -/
structure GoResponse where
  header : ResponseHeader
  body : Bytes
deriving DecidableEq, Repr

/-- responseStream: a streamed response; the live reader and the
underlying http.Response are external handles, the retained cancel
handle is the state the lifecycle claims observe. -/
structure GoResponseStream where
  header : ResponseHeader
  cancel : Option Unit
deriving DecidableEq, Repr

/-- Environment of the buffered path: the dispatch environment plus the
io.ReadAll outcome on the response body. -/
structure DoCtxEnv where
  doEnv : DoEnv
  readResult : Except GoError Bytes
deriving Repr

/-- DoCtx: run do; on success invoke the retained cancel handle (if any),
then read the body to completion and close it, returning the buffered
response.  A read failure is returned after the body close runs. -/
def GoRequest.DoCtx (r : GoRequest) (s : Store) (ctx : GoCtx)
    (env : DoCtxEnv) : Except GoError GoResponse × GoRequest × List Event :=
  match r.doInternal s ctx env.doEnv with
  | (Except.error e, r1, tr) => (Except.error e, r1, tr)
  | (Except.ok resp, r1, tr) =>
    let tr1 := tr ++ (if r1.cancel.isSome then [Event.cancelCall] else [])
    match env.readResult with
    | Except.error e =>
      (Except.error e, r1, tr1 ++ [Event.bodyReadFailed, Event.bodyClose])
    | Except.ok responseBody =>
      (Except.ok
        { header :=
            { status := resp.status, statusCode := resp.statusCode,
              headers := resp.headers },
          body := responseBody },
        r1, tr1 ++ [Event.bodyReadOk, Event.bodyClose])

/-- Do performs the request using context.Background(). -/
def GoRequest.Do (r : GoRequest) (s : Store) (env : DoCtxEnv) :
    Except GoError GoResponse × GoRequest × List Event :=
  r.DoCtx s GoCtx.background env

/-- The header mutation DoStream performs before dispatching: Accept,
Cache-Control and Connection are Set on the shared headers map. -/
def streamHeaders (m : HMap) : HMap :=
  HMap.set
    (HMap.set (HMap.set m headerAccept ContentTypeTextEventStream)
      headerCacheControl "no-cache")
    headerConnection "keep-alive"

/-- DoStream: set the event-stream headers on the shared headers map,
run do, and on success hand the still-open response (and the retained
cancel handle) to the caller without reading or closing anything. -/
def GoRequest.DoStream (r : GoRequest) (s : Store) (ctx : GoCtx)
    (env : DoEnv) :
    Except GoError GoResponseStream × GoRequest × Store × List Event :=
  let s1 := Store.write s r.headersRef (streamHeaders (Store.read s r.headersRef))
  match r.doInternal s1 ctx env with
  | (Except.error e, r1, tr) => (Except.error e, r1, s1, tr)
  | (Except.ok resp, r1, tr) =>
    (Except.ok
      { header :=
          { status := resp.status, statusCode := resp.statusCode,
            headers := resp.headers },
        cancel := r1.cancel },
      r1, s1, tr)

/-- responseStream.Close: always close the underlying body, then invoke
the retained cancel handle when one exists. -/
def GoResponseStream.Close (r : GoResponseStream) : List Event :=
  [Event.bodyClose] ++ (if r.cancel.isSome then [Event.cancelCall] else [])

/-- response.IsError: a status code outside the half-open range from 200
to 400 yields the error-shaped projection of the stored body. -/
def GoResponse.IsError (r : GoResponse) : Option GoError :=
  if r.header.statusCode < 200 ∨ r.header.statusCode ≥ 400 then
    some (GoError.responseErr r.body)
  else
    none

/-- response.BodyRaw. -/
def GoResponse.BodyRaw (r : GoResponse) : Bytes := r.body

/-- responseHeader.StatusCode. -/
def ResponseHeader.StatusCode (r : ResponseHeader) : Int := r.statusCode

/-- responseHeader.GetHeader. -/
def ResponseHeader.GetHeader (r : ResponseHeader) (key : String) : String :=
  HMap.get r.headers key

/-- The ordering property of the buffered path asserted by the spec: at
every prefix of the trace, if the cancel handle has been invoked then
the body read had already completed. -/
def readCompletedBeforeRelease (tr : List Event) : Prop :=
  ∀ n ∈ List.range (tr.length + 1),
    Event.cancelCall ∈ tr.take n → Event.bodyReadOk ∈ tr.take n

instance (tr : List Event) : Decidable (readCompletedBeforeRelease tr) := by
  unfold readCompletedBeforeRelease
  infer_instance

/-! Concrete instances used by the example theorems below: a default
client over an empty heap, a successful 200 response, and environments
for the various transport and read outcomes. -/

/-- A default client allocated on the empty heap. -/
def exInit : GoClient × Store := NewClient Store.empty

/-- The example client. -/
def exClient : GoClient := exInit.1

/-- The heap after allocating the example client. -/
def exStore : Store := exInit.2

/-- A successful transport response. -/
def exResp : HttpResponse := { status := "200 OK", statusCode := 200, headers := [] }

/-- A dispatch environment in which the transport succeeds. -/
def exDoEnvOk : DoEnv :=
  { createEnv := { urlQuery := [], newReqErr := none },
    outcome := Except.ok exResp, ctxDone := false,
    ctxCause := GoError.ctxCanceled }

/-- An example request with a five-unit timeout. -/
def exReqT5 : GoRequest :=
  ((exClient.SetBaseUrl "http://localhost").NewRequest).SetTimeout 5

/-- A buffered-path environment: dispatch succeeds and the body reads
to completion. -/
def c1Env : DoCtxEnv :=
  { doEnv := exDoEnvOk, readResult := Except.ok [112, 111, 110, 103] }

/-- A dispatch environment in which the transport fails while the bounded
scope has expired with the timeout cause. -/
def c2EnvDone : DoEnv :=
  { createEnv := { urlQuery := [], newReqErr := none },
    outcome := Except.error (GoError.transportFailed "dial tcp: connection refused"),
    ctxDone := true, ctxCause := GoError.requestTimedOut }

/-- A request carrying a stored body-construction error, as left behind by
a BodyCustom callback that failed. -/
def c5Pair : GoRequest × Store :=
  (exClient.NewRequest).BodyCustom exStore
    (Except.error (GoError.customFailed "scenarioE"))

/-- A request whose query parameters were built by two AddQueryParam
calls on the same key. -/
def c7Pair : GoRequest × Store :=
  let p := (exClient.NewRequest).AddQueryParam exStore "page" "1"
  p.1.AddQueryParam p.2 "page" "2"

/-- A buffered-path environment: dispatch succeeds but reading the body
fails. -/
def c10Env : DoCtxEnv :=
  { doEnv := exDoEnvOk,
    readResult := Except.error (GoError.readFailed "connection reset") }



theorem HMap.getValues_append (a b : HMap) (k : String) :
    HMap.getValues (a ++ b) k =
      if HMap.hasKey a k then HMap.getValues a k else HMap.getValues b k := by
  induction a with
  | nil => simp [HMap.getValues, HMap.hasKey]
  | cons p rest ih =>
    cases p with
    | mk k' vs =>
      by_cases h : k' = k
      · simp [HMap.getValues, HMap.hasKey, h]
      · simp [HMap.getValues, HMap.hasKey, h, ih]

theorem HMap.hasKey_del_self (m : HMap) (k : String) :
    HMap.hasKey (HMap.del m k) k = false := by
  induction m with
  | nil => simp [HMap.del, HMap.hasKey]
  | cons p rest ih =>
    cases p with
    | mk k' vs =>
      by_cases h : k' = k
      · simp [HMap.del, h, ih]
      · simp [HMap.del, HMap.hasKey, h, ih]

theorem HMap.hasKey_del_of_ne (m : HMap) (k k' : String) (h : k' ≠ k) :
    HMap.hasKey (HMap.del m k) k' = HMap.hasKey m k' := by
  induction m with
  | nil => simp [HMap.del]
  | cons p rest ih =>
    cases p with
    | mk k0 vs =>
      by_cases h0 : k0 = k
      · subst h0
        have hne : k0 ≠ k' := fun hc => h hc.symm
        simp [HMap.del, HMap.hasKey, hne, ih]
      · simp [HMap.del, HMap.hasKey, h0, ih]

theorem HMap.getValues_del_of_ne (m : HMap) (k k' : String) (h : k' ≠ k) :
    HMap.getValues (HMap.del m k) k' = HMap.getValues m k' := by
  induction m with
  | nil => simp [HMap.del]
  | cons p rest ih =>
    cases p with
    | mk k0 vs =>
      by_cases h0 : k0 = k
      · subst h0
        have hne : k0 ≠ k' := fun hc => h hc.symm
        simp [HMap.del, HMap.getValues, hne, ih]
      · simp [HMap.del, HMap.getValues, h0, ih]

theorem HMap.getValues_eq_nil_of_hasKey_eq_false (m : HMap) (k : String)
    (h : HMap.hasKey m k = false) : HMap.getValues m k = [] := by
  induction m with
  | nil => simp [HMap.getValues]
  | cons p rest ih =>
    cases p with
    | mk k0 vs =>
      by_cases h0 : k0 = k
      · simp [HMap.hasKey, h0] at h
      · simp [HMap.hasKey, h0] at h
        simp [HMap.getValues, h0, ih h]

theorem HMap.getValues_set_self (m : HMap) (k v : String) :
    HMap.getValues (HMap.set m k v) k = [v] := by
  unfold HMap.set
  rw [HMap.getValues_append, HMap.hasKey_del_self]
  simp [HMap.getValues]

theorem HMap.get_set_self (m : HMap) (k v : String) :
    HMap.get (HMap.set m k v) k = v := by
  unfold HMap.get
  rw [HMap.getValues_set_self]

theorem HMap.getValues_set_of_ne (m : HMap) (k k' v : String) (h : k' ≠ k) :
    HMap.getValues (HMap.set m k v) k' = HMap.getValues m k' := by
  unfold HMap.set
  rw [HMap.getValues_append, HMap.hasKey_del_of_ne m k k' h]
  by_cases hk : HMap.hasKey m k'
  · rw [if_pos hk, HMap.getValues_del_of_ne m k k' h]
  · rw [if_neg (by simp [hk])]
    rw [HMap.getValues_eq_nil_of_hasKey_eq_false m k' (by simp [hk])]
    simp [HMap.getValues]
    exact fun hc => h hc.symm

theorem HMap.hasKey_eq_false_iff (m : HMap) (k : String) :
    HMap.hasKey m k = false ↔ k ∉ m.map Prod.fst := by
  induction m with
  | nil => simp [HMap.hasKey]
  | cons p rest ih =>
    cases p with
    | mk k0 vs =>
      by_cases h0 : k0 = k
      · simp [HMap.hasKey, h0]
      · have hne : k ≠ k0 := fun hc => h0 hc.symm
        simp [HMap.hasKey, h0, ih, List.mem_cons, hne]

theorem HMap.foldl_set_getValues_self (vs : List String) (m : HMap) (k d : String) :
    HMap.getValues (vs.foldl (fun acc v => HMap.set acc k v) m) k
      = if vs = [] then HMap.getValues m k else [vs.getLastD d] := by
  induction vs generalizing m d with
  | nil => simp
  | cons v rest ih =>
    simp only [List.foldl_cons]
    rw [ih (HMap.set m k v) v]
    by_cases h : rest = []
    · subst h
      simp [HMap.getValues_set_self]
    · obtain ⟨a, t, rfl⟩ := List.exists_cons_of_ne_nil h
      simp [List.getLastD, List.getLast?_cons_cons]

theorem HMap.foldl_set_getValues_of_ne (vs : List String) (m : HMap) (k k' : String)
    (h : k' ≠ k) :
    HMap.getValues (vs.foldl (fun acc v => HMap.set acc k v) m) k'
      = HMap.getValues m k' := by
  induction vs generalizing m with
  | nil => simp
  | cons v rest ih =>
    simp only [List.foldl_cons]
    rw [ih, HMap.getValues_set_of_ne m k k' v h]

theorem mergeQuery_getValues_of_hasKey_eq_false (q ps : HMap) (k : String)
    (h : HMap.hasKey ps k = false) :
    HMap.getValues (mergeQuery q ps) k = HMap.getValues q k := by
  induction ps generalizing q with
  | nil => simp [mergeQuery]
  | cons p rest ih =>
    cases p with
    | mk k0 vs0 =>
      by_cases h0 : k0 = k
      · simp [HMap.hasKey, h0] at h
      · simp [HMap.hasKey, h0] at h
        have step : mergeQuery q ((k0, vs0) :: rest)
            = mergeQuery (vs0.foldl (fun acc2 v => HMap.set acc2 k0 v) q) rest := rfl
        rw [step, ih _ h, HMap.foldl_set_getValues_of_ne vs0 q k0 k (fun hc => h0 hc.symm)]

theorem mergeQuery_getValues_of_mem (q ps : HMap) (k : String) (vs : List String)
    (hnd : HMap.KeysNodup ps) (hmem : (k, vs) ∈ ps) (hvs : vs ≠ []) :
    HMap.getValues (mergeQuery q ps) k = [vs.getLastD ""] := by
  induction ps generalizing q with
  | nil => cases hmem
  | cons p rest ih =>
    unfold HMap.KeysNodup at hnd
    simp only [List.map_cons, List.nodup_cons] at hnd
    obtain ⟨hnotin, hnd'⟩ := hnd
    have step : mergeQuery q (p :: rest)
        = mergeQuery (p.2.foldl (fun acc2 v => HMap.set acc2 p.1 v) q) rest := rfl
    rw [step]
    rcases List.mem_cons.mp hmem with heq | hmem'
    · subst heq
      have hfalse : HMap.hasKey rest k = false := by
        rw [HMap.hasKey_eq_false_iff]
        exact hnotin
      rw [mergeQuery_getValues_of_hasKey_eq_false _ _ _ hfalse]
      rw [show (((k, vs).2).foldl (fun acc2 v => HMap.set acc2 (k, vs).1 v) q)
            = vs.foldl (fun acc2 v => HMap.set acc2 k v) q from rfl]
      rw [HMap.foldl_set_getValues_self vs q k ""]
      simp [hvs]
    · exact ih _ hnd' hmem'

theorem GoRequest.requestBody_of_none (r : GoRequest) (h : r.bodyErr = none) :
    r.requestBody = Except.ok (r.body.getD []) := by
  unfold GoRequest.requestBody
  rw [h]
  cases hb : r.body <;> simp

theorem GoRequest.requestBody_of_some (r : GoRequest) (e : GoError)
    (h : r.bodyErr = some e) : r.requestBody = Except.error e := by
  unfold GoRequest.requestBody
  rw [h]

theorem GoRequest.createRequest_of_pos (r : GoRequest) (s : Store) (ctx : GoCtx)
    (url : String) (body : Bytes) (env : CreateReqEnv)
    (ht : 0 < r.timeout) (hn : env.newReqErr = none) :
    r.createRequest s ctx url body env =
      (Except.ok
        { method := r.method, url := url, headersRef := r.headersRef,
          rawQuery := mergeQuery env.urlQuery (Store.read s r.queryParamsRef),
          body := body,
          ctx := GoCtx.withTimeoutCause ctx r.timeout GoError.requestTimedOut },
       { r with cancel := some (),
                ctx := some (GoCtx.withTimeoutCause ctx r.timeout GoError.requestTimedOut) }) := by
  unfold GoRequest.createRequest
  rw [if_pos ht, hn]

theorem GoRequest.createRequest_of_nonpos (r : GoRequest) (s : Store) (ctx : GoCtx)
    (url : String) (body : Bytes) (env : CreateReqEnv)
    (ht : ¬ 0 < r.timeout) (hn : env.newReqErr = none) :
    r.createRequest s ctx url body env =
      (Except.ok
        { method := r.method, url := url, headersRef := r.headersRef,
          rawQuery := mergeQuery env.urlQuery (Store.read s r.queryParamsRef),
          body := body, ctx := ctx },
       { r with ctx := some ctx }) := by
  unfold GoRequest.createRequest
  rw [if_neg ht, hn]

theorem GoRequest.createRequest_request_eq (r : GoRequest) (s : Store) (ctx : GoCtx)
    (url : String) (body : Bytes) (env : CreateReqEnv) :
    (r.createRequest s ctx url body env).2 =
      if 0 < r.timeout then
        { r with cancel := some (),
                 ctx := some (GoCtx.withTimeoutCause ctx r.timeout GoError.requestTimedOut) }
      else
        { r with ctx := some ctx } := by
  unfold GoRequest.createRequest
  by_cases ht : 0 < r.timeout
  · rw [if_pos ht, if_pos ht]
    cases env.newReqErr <;> rfl
  · rw [if_neg ht, if_neg ht]
    cases env.newReqErr <;> rfl

theorem GoRequest.doInternal_of_bodyErr (r : GoRequest) (s : Store) (ctx : GoCtx)
    (env : DoEnv) (e : GoError) (h : r.bodyErr = some e) :
    r.doInternal s ctx env = (Except.error e, r, []) := by
  unfold GoRequest.doInternal
  rw [GoRequest.requestBody_of_some r e h]

theorem GoRequest.doInternal_of_ok (r : GoRequest) (s : Store) (ctx : GoCtx)
    (env : DoEnv) (resp : HttpResponse)
    (hb : r.bodyErr = none) (hn : env.createEnv.newReqErr = none)
    (hout : env.outcome = Except.ok resp) :
    r.doInternal s ctx env =
      (Except.ok resp,
       (r.createRequest s ctx r.requestUrl (r.body.getD []) env.createEnv).2,
       [Event.dispatch]) := by
  by_cases ht : 0 < r.timeout
  · simp only [GoRequest.doInternal, GoRequest.requestBody_of_none r hb,
      GoRequest.createRequest_of_pos r s ctx r.requestUrl (r.body.getD []) env.createEnv ht hn,
      hout]
  · simp only [GoRequest.doInternal, GoRequest.requestBody_of_none r hb,
      GoRequest.createRequest_of_nonpos r s ctx r.requestUrl (r.body.getD []) env.createEnv ht hn,
      hout]

theorem GoRequest.doInternal_of_failure (r : GoRequest) (s : Store) (ctx : GoCtx)
    (env : DoEnv) (e : GoError)
    (hb : r.bodyErr = none) (hn : env.createEnv.newReqErr = none)
    (hout : env.outcome = Except.error e) :
    r.doInternal s ctx env =
      (Except.error
        (if env.ctxDone then
          GoError.wrapped (goToUpper r.method) r.requestUrl env.ctxCause
        else e),
       (r.createRequest s ctx r.requestUrl (r.body.getD []) env.createEnv).2,
       [Event.dispatch]) := by
  by_cases ht : 0 < r.timeout
  · simp only [GoRequest.doInternal, GoRequest.requestBody_of_none r hb,
      GoRequest.createRequest_of_pos r s ctx r.requestUrl (r.body.getD []) env.createEnv ht hn,
      hout]
  · simp only [GoRequest.doInternal, GoRequest.requestBody_of_none r hb,
      GoRequest.createRequest_of_nonpos r s ctx r.requestUrl (r.body.getD []) env.createEnv ht hn,
      hout]

theorem GoRequest.doInternal_trace_no_cancel (r : GoRequest) (s : Store)
    (ctx : GoCtx) (env : DoEnv) :
    Event.cancelCall ∉ (r.doInternal s ctx env).2.2 := by
  cases hrb : r.requestBody with
  | error e => simp [GoRequest.doInternal, hrb]
  | ok b =>
    rcases hcr : r.createRequest s ctx r.requestUrl b env.createEnv with ⟨res, r1⟩
    cases res with
    | error e => simp [GoRequest.doInternal, hrb, hcr]
    | ok req =>
      cases hout : env.outcome with
      | error e2 => simp [GoRequest.doInternal, hrb, hcr, hout]
      | ok resp => simp [GoRequest.doInternal, hrb, hcr, hout]

theorem Store.read_write_self (s : Store) (ref : Nat) (m : HMap) :
    Store.read (Store.write s ref m) ref = m := by
  simp [Store.read, Store.write]

theorem GoError.is_self (e : GoError) : GoError.is e e = true := by
  cases e <;> simp [GoError.is]

theorem GoError.is_wrapped_cause (m u : String) (c : GoError) :
    GoError.is (GoError.wrapped m u c) c = true := by
  simp [GoError.is, GoError.is_self]

theorem GoRequest.DoCtx_of_do_error (r : GoRequest) (s : Store) (ctx : GoCtx)
    (env : DoCtxEnv) (e : GoError) (r1 : GoRequest) (tr : List Event)
    (h : r.doInternal s ctx env.doEnv = (Except.error e, r1, tr)) :
    r.DoCtx s ctx env = (Except.error e, r1, tr) := by
  simp only [GoRequest.DoCtx, h]

theorem GoRequest.DoStream_trace_eq (r : GoRequest) (s : Store) (ctx : GoCtx)
    (env : DoEnv) :
    (r.DoStream s ctx env).2.2.2 =
      (r.doInternal
        (Store.write s r.headersRef (streamHeaders (Store.read s r.headersRef)))
        ctx env).2.2 := by
  unfold GoRequest.DoStream
  rcases hdo : r.doInternal
      (Store.write s r.headersRef (streamHeaders (Store.read s r.headersRef)))
      ctx env with ⟨res, r1, tr⟩
  cases res <;> simp [hdo]

theorem GoRequest.DoStream_trace_no_cancel (r : GoRequest) (s : Store)
    (ctx : GoCtx) (env : DoEnv) :
    Event.cancelCall ∉ (r.DoStream s ctx env).2.2.2 := by
  rw [GoRequest.DoStream_trace_eq]
  exact GoRequest.doInternal_trace_no_cancel r _ ctx env

theorem GoRequest.DoStream_of_bodyErr (r : GoRequest) (s : Store) (ctx : GoCtx)
    (env : DoEnv) (e : GoError) (h : r.bodyErr = some e) :
    (r.DoStream s ctx env).1 = Except.error e ∧
    (r.DoStream s ctx env).2.2.2 = [] := by
  simp [GoRequest.DoStream, GoRequest.doInternal_of_bodyErr r _ ctx env e h]

theorem GoRequest.DoStream_of_ok (r : GoRequest) (s : Store) (ctx : GoCtx)
    (env : DoEnv) (resp : HttpResponse)
    (hb : r.bodyErr = none) (hn : env.createEnv.newReqErr = none)
    (hout : env.outcome = Except.ok resp) :
    (r.DoStream s ctx env).1 =
      Except.ok
        { header :=
            { status := resp.status, statusCode := resp.statusCode,
              headers := resp.headers },
          cancel :=
            if 0 < r.timeout then some () else r.cancel } := by
  simp only [GoRequest.DoStream, GoRequest.doInternal_of_ok r _ ctx env resp hb hn hout,
    GoRequest.createRequest_request_eq]
  by_cases ht : 0 < r.timeout
  · rw [if_pos ht, if_pos ht]
  · rw [if_neg ht, if_neg ht]


/-! The claim theorems.  Each is stated over the embedded operations; the
counterexample theorems evaluate the code on explicit inputs. -/

/-- A helper characterization: IsError is nil exactly on the success
status range from 200 inclusive to 400 exclusive. -/
theorem GoResponse.isError_eq_none_iff (r : GoResponse) :
    r.IsError = none ↔ 200 ≤ r.header.statusCode ∧ r.header.statusCode < 400 := by
  unfold GoResponse.IsError
  by_cases h : r.header.statusCode < 200 ∨ r.header.statusCode ≥ 400
  · rw [if_pos h]
    simp
    omega
  · rw [if_neg h]
    simp
    omega

/-- Claim C1 fails on the code: with a bounded scope created, a successful
dispatch and a successful body read, DoCtx invokes the retained cancel
handle before io.ReadAll runs, so the body is not read to completion
before the scope is released. -/
theorem doCtx_read_then_release_cex :
    ¬ readCompletedBeforeRelease (exReqT5.DoCtx exStore GoCtx.background c1Env).2.2 ∧
    (exReqT5.DoCtx exStore GoCtx.background c1Env).2.2
      = [Event.dispatch, Event.cancelCall, Event.bodyReadOk, Event.bodyClose] ∧
    (exReqT5.DoCtx exStore GoCtx.background c1Env).1
      = Except.ok
          { header := { status := "200 OK", statusCode := 200, headers := [] },
            body := [112, 111, 110, 103] } := by
  exact ⟨by decide, by decide, rfl⟩

/-- Claim C1 (amended): for every request whose transport dispatch
succeeds, the buffered path releases the bounded cancellation scope (if
one was created) immediately after the dispatch, then fully reads the
response body to completion and closes it, all before returning the
Response to the caller. -/
theorem doCtx_release_before_read (r : GoRequest) (s : Store) (ctx : GoCtx)
    (env : DoCtxEnv) (resp : HttpResponse) (b : Bytes)
    (hb : r.bodyErr = none) (hn : env.doEnv.createEnv.newReqErr = none)
    (hout : env.doEnv.outcome = Except.ok resp)
    (hread : env.readResult = Except.ok b) :
    (0 < r.timeout →
      (r.DoCtx s ctx env).2.2
        = [Event.dispatch, Event.cancelCall, Event.bodyReadOk, Event.bodyClose]) ∧
    (r.cancel = none → ¬ 0 < r.timeout →
      (r.DoCtx s ctx env).2.2 = [Event.dispatch, Event.bodyReadOk, Event.bodyClose]) ∧
    (r.DoCtx s ctx env).1 =
      Except.ok
        { header := { status := resp.status, statusCode := resp.statusCode,
                      headers := resp.headers },
          body := b } := by
  refine ⟨?_, ?_, ?_⟩
  · intro ht
    simp [GoRequest.DoCtx,
      GoRequest.doInternal_of_ok r s ctx env.doEnv resp hb hn hout,
      GoRequest.createRequest_request_eq, if_pos ht, hread]
  · intro hc ht
    simp [GoRequest.DoCtx,
      GoRequest.doInternal_of_ok r s ctx env.doEnv resp hb hn hout,
      GoRequest.createRequest_request_eq, if_neg ht, hread, hc]
  · by_cases ht : 0 < r.timeout
    · simp [GoRequest.DoCtx,
        GoRequest.doInternal_of_ok r s ctx env.doEnv resp hb hn hout,
        GoRequest.createRequest_request_eq, if_pos ht, hread]
    · simp [GoRequest.DoCtx,
        GoRequest.doInternal_of_ok r s ctx env.doEnv resp hb hn hout,
        GoRequest.createRequest_request_eq, if_neg ht, hread]

/-- Witness for the amended C1 theorem at a concrete request. -/
theorem doCtx_release_before_read_witness :
    (exReqT5.DoCtx exStore GoCtx.background c1Env).2.2
      = [Event.dispatch, Event.cancelCall, Event.bodyReadOk, Event.bodyClose] :=
  (doCtx_release_before_read exReqT5 exStore GoCtx.background c1Env exResp
    [112, 111, 110, 103] rfl rfl rfl rfl).1 (by decide)

/-- Claim C2: when the transport dispatch fails and the request context
is done, the returned error wraps the cancellation cause reported by
context.Cause (and matches it by kind through errors.Is, in particular
ErrRequestTimedOut when the bounded scope expired, as the bounded scope
created for a positive timeout is tagged with that cause); when the
context is not done, the transport error is returned unchanged. -/
theorem do_transport_failure_reclassify (r : GoRequest) (s : Store)
    (ctx : GoCtx) (env : DoEnv) (e : GoError)
    (hb : r.bodyErr = none) (hn : env.createEnv.newReqErr = none)
    (hout : env.outcome = Except.error e) :
    (env.ctxDone = false → (r.doInternal s ctx env).1 = Except.error e) ∧
    (env.ctxDone = true →
      (r.doInternal s ctx env).1
        = Except.error
            (GoError.wrapped (goToUpper r.method) r.requestUrl env.ctxCause) ∧
      GoError.is (GoError.wrapped (goToUpper r.method) r.requestUrl env.ctxCause)
        env.ctxCause = true) ∧
    (0 < r.timeout →
      (r.doInternal s ctx env).2.1.ctx
        = some (GoCtx.withTimeoutCause ctx r.timeout GoError.requestTimedOut)) := by
  refine ⟨?_, ?_, ?_⟩
  · intro hd
    simp [GoRequest.doInternal_of_failure r s ctx env e hb hn hout, hd]
  · intro hd
    refine ⟨?_, GoError.is_wrapped_cause _ _ _⟩
    simp [GoRequest.doInternal_of_failure r s ctx env e hb hn hout, hd]
  · intro ht
    simp [GoRequest.doInternal_of_failure r s ctx env e hb hn hout,
      GoRequest.createRequest_request_eq, if_pos ht]

/-- Witness for C2: a dial failure with an expired bounded scope is
reported as the timeout cause wrapped with method and URL. -/
theorem do_transport_failure_reclassify_witness :
    (exReqT5.doInternal exStore GoCtx.background c2EnvDone).1
      = Except.error
          (GoError.wrapped "GET" "http://localhost" GoError.requestTimedOut) :=
  ((do_transport_failure_reclassify exReqT5 exStore GoCtx.background c2EnvDone
      (GoError.transportFailed "dial tcp: connection refused")
      rfl rfl rfl).2.1 rfl).1

/-- Claim C3: a strictly positive effective timeout makes createRequest
derive from the supplied context a scope with that timeout as deadline
and ErrRequestTimedOut as cause, retaining the cancel handle on the
request; with timeout zero or negative the supplied context is used
unchanged and the cancel slot is untouched. -/
theorem createRequest_timeout_scope (r : GoRequest) (s : Store) (ctx : GoCtx)
    (url : String) (body : Bytes) (env : CreateReqEnv) :
    (0 < r.timeout →
      (r.createRequest s ctx url body env).2.ctx
        = some (GoCtx.withTimeoutCause ctx r.timeout GoError.requestTimedOut) ∧
      (r.createRequest s ctx url body env).2.cancel = some ()) ∧
    (r.timeout ≤ 0 →
      (r.createRequest s ctx url body env).2.ctx = some ctx ∧
      (r.createRequest s ctx url body env).2.cancel = r.cancel) := by
  constructor
  · intro ht
    rw [GoRequest.createRequest_request_eq, if_pos ht]
    exact ⟨rfl, rfl⟩
  · intro ht
    have ht2 : ¬ 0 < r.timeout := by omega
    rw [GoRequest.createRequest_request_eq, if_neg ht2]
    exact ⟨rfl, rfl⟩

/-- Witness for C3 at a request with timeout five. -/
theorem createRequest_timeout_scope_witness :
    (exReqT5.createRequest exStore GoCtx.background "http://localhost" []
        { urlQuery := [], newReqErr := none }).2.ctx
      = some (GoCtx.withTimeoutCause GoCtx.background 5 GoError.requestTimedOut) :=
  ((createRequest_timeout_scope exReqT5 exStore GoCtx.background "http://localhost"
      [] { urlQuery := [], newReqErr := none }).1 (by decide)).1

/-- Claim C4: a successful DoStream returns without invoking the retained
cancel handle (it is carried on the stream instead), and Close always
closes the body, invokes the cancel handle when one exists, and still
succeeds when the handle is absent. -/
theorem doStream_defers_release_close_nil_safe (r : GoRequest) (s : Store)
    (ctx : GoCtx) (env : DoEnv) (resp : HttpResponse) (rs : GoResponseStream)
    (hb : r.bodyErr = none) (hn : env.createEnv.newReqErr = none)
    (hout : env.outcome = Except.ok resp) :
    Event.cancelCall ∉ (r.DoStream s ctx env).2.2.2 ∧
    (r.DoStream s ctx env).1 =
      Except.ok
        { header := { status := resp.status, statusCode := resp.statusCode,
                      headers := resp.headers },
          cancel := if 0 < r.timeout then some () else r.cancel } ∧
    Event.bodyClose ∈ GoResponseStream.Close rs ∧
    (rs.cancel.isSome = true → Event.cancelCall ∈ GoResponseStream.Close rs) ∧
    (rs.cancel = none → GoResponseStream.Close rs = [Event.bodyClose]) := by
  refine ⟨GoRequest.DoStream_trace_no_cancel r s ctx env,
    GoRequest.DoStream_of_ok r s ctx env resp hb hn hout, ?_, ?_, ?_⟩
  · simp [GoResponseStream.Close]
  · intro hc
    simp [GoResponseStream.Close, hc]
  · intro hc
    simp [GoResponseStream.Close, hc]

/-- Witness for C4 at a concrete stream and request. -/
theorem doStream_defers_release_close_nil_safe_witness :
    Event.cancelCall ∉ (exReqT5.DoStream exStore GoCtx.background exDoEnvOk).2.2.2 ∧
    GoResponseStream.Close
        { header := { status := "200 OK", statusCode := 200, headers := [] },
          cancel := none }
      = [Event.bodyClose] :=
  ⟨(doStream_defers_release_close_nil_safe exReqT5 exStore GoCtx.background
      exDoEnvOk exResp
      { header := { status := "200 OK", statusCode := 200, headers := [] },
        cancel := none } rfl rfl rfl).1,
   (doStream_defers_release_close_nil_safe exReqT5 exStore GoCtx.background
      exDoEnvOk exResp
      { header := { status := "200 OK", statusCode := 200, headers := [] },
        cancel := none } rfl rfl rfl).2.2.2.2 rfl⟩

/-- Claim C5: a stored body-construction error makes Do, DoCtx and
DoStream return exactly that error with no response, and no transport
dispatch is attempted. -/
theorem stored_bodyErr_fails_without_dispatch (r : GoRequest) (s : Store)
    (ctx : GoCtx) (envC : DoCtxEnv) (envS : DoEnv) (e : GoError)
    (hb : r.bodyErr = some e) :
    (r.Do s envC).1 = Except.error e ∧
    (r.DoCtx s ctx envC).1 = Except.error e ∧
    (r.DoStream s ctx envS).1 = Except.error e ∧
    Event.dispatch ∉ (r.Do s envC).2.2 ∧
    Event.dispatch ∉ (r.DoCtx s ctx envC).2.2 ∧
    Event.dispatch ∉ (r.DoStream s ctx envS).2.2.2 := by
  have hC : ∀ ctx2, r.DoCtx s ctx2 envC = (Except.error e, r, []) := fun ctx2 =>
    GoRequest.DoCtx_of_do_error r s ctx2 envC e r []
      (GoRequest.doInternal_of_bodyErr r s ctx2 envC.doEnv e hb)
  have hS := GoRequest.DoStream_of_bodyErr r s ctx envS e hb
  refine ⟨?_, ?_, hS.1, ?_, ?_, ?_⟩
  · simp only [GoRequest.Do, hC GoCtx.background]
  · simp only [hC ctx]
  · simp only [GoRequest.Do, hC GoCtx.background]
    simp
  · simp only [hC ctx]
    simp
  · rw [hS.2]
    simp

/-- Witness for C5: the stored BodyCustom error is returned by Do with
no dispatch. -/
theorem stored_bodyErr_fails_without_dispatch_witness :
    (c5Pair.1.Do c5Pair.2 c1Env).1
      = Except.error (GoError.customFailed "scenarioE") ∧
    Event.dispatch ∉ (c5Pair.1.Do c5Pair.2 c1Env).2.2 :=
  ⟨(stored_bodyErr_fails_without_dispatch c5Pair.1 c5Pair.2 GoCtx.background
      c1Env exDoEnvOk (GoError.customFailed "scenarioE") rfl).1,
   (stored_bodyErr_fails_without_dispatch c5Pair.1 c5Pair.2 GoCtx.background
      c1Env exDoEnvOk (GoError.customFailed "scenarioE") rfl).2.2.2.1⟩

/-- Claim C6: IsError reports an error exactly when the status code lies
outside the half-open range from 200 to 400 (199 and 400 are errors, 200
and 399 are not), and its result is a pure projection of the already
stored body, never a new fetch. -/
theorem isError_status_range (r : GoResponse) :
    (r.IsError = none ↔ 200 ≤ r.header.statusCode ∧ r.header.statusCode < 400) ∧
    (∀ e, r.IsError = some e → e = GoError.responseErr r.body) ∧
    GoResponse.IsError
        { header := { status := "", statusCode := 199, headers := [] }, body := [] }
      ≠ none ∧
    GoResponse.IsError
        { header := { status := "", statusCode := 400, headers := [] }, body := [] }
      ≠ none ∧
    GoResponse.IsError
        { header := { status := "", statusCode := 200, headers := [] }, body := [] }
      = none ∧
    GoResponse.IsError
        { header := { status := "", statusCode := 399, headers := [] }, body := [] }
      = none := by
  refine ⟨GoResponse.isError_eq_none_iff r, ?_, by decide, by decide, by decide, by decide⟩
  intro e he
  unfold GoResponse.IsError at he
  by_cases h : r.header.statusCode < 200 ∨ r.header.statusCode ≥ 400
  · rw [if_pos h] at he
    exact (Option.some.inj he).symm
  · rw [if_neg h] at he
    cases he

/-- Witness for C6 at a concrete 200 response. -/
theorem isError_status_range_witness :
    GoResponse.IsError
        { header := { status := "200 OK", statusCode := 200, headers := [] },
          body := [] }
      = none :=
  (isError_status_range
    { header := { status := "200 OK", statusCode := 200, headers := [] },
      body := [] }).1.mpr (by decide)

/-- Claim C7: createRequest merges the request query parameters into the
outbound URL query replace-by-key: every key present in the request's
composed query mapping ends up with exactly the single value that was
set last, overwriting any value the outbound URL already carried. -/
theorem createRequest_query_replace_by_key (r : GoRequest) (s : Store)
    (ctx : GoCtx) (url : String) (body : Bytes) (env : CreateReqEnv)
    (k : String) (vs : List String)
    (hn : env.newReqErr = none)
    (hnd : HMap.KeysNodup (Store.read s r.queryParamsRef))
    (hmem : (k, vs) ∈ Store.read s r.queryParamsRef) (hvs : vs ≠ []) :
    ∃ req : OutboundRequest,
      (r.createRequest s ctx url body env).1 = Except.ok req ∧
      HMap.getValues req.rawQuery k = [vs.getLastD ""] := by
  by_cases ht : 0 < r.timeout
  · rw [GoRequest.createRequest_of_pos r s ctx url body env ht hn]
    exact ⟨_, rfl, mergeQuery_getValues_of_mem env.urlQuery _ k vs hnd hmem hvs⟩
  · rw [GoRequest.createRequest_of_nonpos r s ctx url body env ht hn]
    exact ⟨_, rfl, mergeQuery_getValues_of_mem env.urlQuery _ k vs hnd hmem hvs⟩

/-- Witness for C7: two AddQueryParam calls on the same key followed by a
merge against a URL already carrying that key yield the single last
value. -/
theorem createRequest_query_replace_by_key_witness :
    ∃ req : OutboundRequest,
      (c7Pair.1.createRequest c7Pair.2 GoCtx.background "http://localhost" []
          { urlQuery := [("page", ["0"])], newReqErr := none }).1
        = Except.ok req ∧
      HMap.getValues req.rawQuery "page" = ["2"] :=
  createRequest_query_replace_by_key c7Pair.1 c7Pair.2 GoCtx.background
    "http://localhost" [] { urlQuery := [("page", ["0"])], newReqErr := none }
    "page" ["1", "2"] rfl (by decide) (by decide) (by decide)

/-- Claim C8 fails on the code: NewRequest stores the client's map
references, so a client SetHeader performed after the request was created
is visible through the request's headers reference. -/
theorem newRequest_isolation_cex :
    HMap.get (Store.read exStore (exClient.NewRequest).headersRef) "X-Token" = "" ∧
    HMap.get
        (Store.read (exClient.SetHeader exStore "X-Token" "after").2
          (exClient.NewRequest).headersRef)
        "X-Token"
      = "after" := by
  exact ⟨by decide, by decide⟩

/-- Claim C8 (amended): a request created by NewRequest shares the
client's header and query containers by reference, so mutating the
client's defaults afterwards does change what the request observes. -/
theorem newRequest_shares_client_maps (c : GoClient) (s : Store) (k v : String) :
    (c.NewRequest).headersRef = c.headersRef ∧
    (c.NewRequest).queryParamsRef = c.queryParamsRef ∧
    HMap.get (Store.read (c.SetHeader s k v).2 (c.NewRequest).headersRef) k = v ∧
    HMap.getValues
        (Store.read (c.SetQueryParam s k v).2 (c.NewRequest).queryParamsRef) k
      = [v] := by
  refine ⟨rfl, rfl, ?_, ?_⟩
  · simp only [GoClient.SetHeader, GoClient.NewRequest]
    rw [Store.read_write_self]
    exact HMap.get_set_self _ k v
  · simp only [GoClient.SetQueryParam, GoClient.NewRequest]
    rw [Store.read_write_self]
    exact HMap.getValues_set_self _ k v

/-- Claim C9 fails on the code: BodyRaw stores the bytes but sets no
Content-Type header at all. -/
theorem bodyRaw_sets_no_content_type_cex :
    ((exClient.NewRequest).BodyRaw exStore [1, 2, 3]).1.body = some [1, 2, 3] ∧
    HMap.getValues
        (Store.read ((exClient.NewRequest).BodyRaw exStore [1, 2, 3]).2
          ((exClient.NewRequest).BodyRaw exStore [1, 2, 3]).1.headersRef)
        headerContentType
      = [] := by
  exact ⟨rfl, by decide⟩

/-- Claim C9 (amended): every body-setting operation first discards any
previously stored body and body error; on success the encoded bytes are
stored, and BodyJson, BodyXml, BodyFormUrlEncoded and BodyMultipartForm
set the corresponding Content-Type header as a side effect, while
BodyRaw and BodyCustom leave the headers untouched. -/
theorem body_setters_reset_and_content_type (r : GoRequest) (s : Store)
    (b enc : Bytes) (e : GoError) (ct : String) :
    ((r.BodyRaw s b).1.body = some b ∧ (r.BodyRaw s b).1.bodyErr = none ∧
      (r.BodyRaw s b).2 = s) ∧
    ((r.BodyCustom s (Except.ok b)).1.body = some b ∧
      (r.BodyCustom s (Except.ok b)).1.bodyErr = none ∧
      (r.BodyCustom s (Except.ok b)).2 = s) ∧
    ((r.BodyCustom s (Except.error e)).1.bodyErr = some e ∧
      (r.BodyCustom s (Except.error e)).1.body = none) ∧
    ((r.BodyJson s (Except.ok b)).1.body = some b ∧
      (r.BodyJson s (Except.ok b)).1.bodyErr = none ∧
      HMap.get (Store.read (r.BodyJson s (Except.ok b)).2 r.headersRef)
        headerContentType = ContentTypeJson) ∧
    ((r.BodyXml s (Except.ok b)).1.body = some b ∧
      (r.BodyXml s (Except.ok b)).1.bodyErr = none ∧
      HMap.get (Store.read (r.BodyXml s (Except.ok b)).2 r.headersRef)
        headerContentType = ContentTypeXml) ∧
    ((r.BodyFormUrlEncoded s enc).1.body = some enc ∧
      (r.BodyFormUrlEncoded s enc).1.bodyErr = none ∧
      HMap.get (Store.read (r.BodyFormUrlEncoded s enc).2 r.headersRef)
        headerContentType = ContentTypeFormUrlEncoded) ∧
    ((r.BodyMultipartForm s (Except.ok b) ct).1.body = some b ∧
      (r.BodyMultipartForm s (Except.ok b) ct).1.bodyErr = none ∧
      HMap.get (Store.read (r.BodyMultipartForm s (Except.ok b) ct).2 r.headersRef)
        headerContentType = ct) := by
  refine ⟨⟨rfl, rfl, rfl⟩, ⟨rfl, rfl, rfl⟩, ⟨rfl, rfl⟩, ⟨rfl, rfl, ?_⟩,
    ⟨rfl, rfl, ?_⟩, ⟨rfl, rfl, ?_⟩, ⟨rfl, rfl, ?_⟩⟩
  · simp only [GoRequest.BodyJson, GoRequest.SetHeader, GoRequest.resetBody]
    rw [Store.read_write_self]
    exact HMap.get_set_self _ _ _
  · simp only [GoRequest.BodyXml, GoRequest.SetHeader, GoRequest.resetBody]
    rw [Store.read_write_self]
    exact HMap.get_set_self _ _ _
  · simp only [GoRequest.BodyFormUrlEncoded, GoRequest.SetHeader, GoRequest.resetBody]
    rw [Store.read_write_self]
    exact HMap.get_set_self _ _ _
  · simp only [GoRequest.BodyMultipartForm, GoRequest.SetHeader, GoRequest.resetBody]
    rw [Store.read_write_self]
    exact HMap.get_set_self _ _ _

/-- Claim C10 fails on the code: when the dispatch succeeds but the body
read fails, DoCtx returns the read error after having already invoked the
retained cancel handle. -/
theorem cancel_called_despite_read_error_cex :
    (exReqT5.DoCtx exStore GoCtx.background c10Env).1
      = Except.error (GoError.readFailed "connection reset") ∧
    Event.cancelCall ∈ (exReqT5.DoCtx exStore GoCtx.background c10Env).2.2 := by
  exact ⟨rfl, by decide⟩

/-- Claim C10 (amended): the retained cancel handle is never invoked on a
transport-dispatch failure and never by DoStream; DoCtx invokes it as
soon as the dispatch succeeds, which is before a body-read failure is
returned. -/
theorem cancel_release_policy (r : GoRequest) (s : Store) (ctx : GoCtx)
    (env : DoCtxEnv) (envS : DoEnv) (e er : GoError) (resp : HttpResponse)
    (hb : r.bodyErr = none) (hn : env.doEnv.createEnv.newReqErr = none) :
    (env.doEnv.outcome = Except.error e →
      Event.cancelCall ∉ (r.DoCtx s ctx env).2.2) ∧
    Event.cancelCall ∉ (r.DoStream s ctx envS).2.2.2 ∧
    (env.doEnv.outcome = Except.ok resp → env.readResult = Except.error er →
      0 < r.timeout →
      (r.DoCtx s ctx env).1 = Except.error er ∧
      Event.cancelCall ∈ (r.DoCtx s ctx env).2.2) := by
  refine ⟨?_, GoRequest.DoStream_trace_no_cancel r s ctx envS, ?_⟩
  · intro hout
    rw [GoRequest.DoCtx_of_do_error r s ctx env _ _ _
      (GoRequest.doInternal_of_failure r s ctx env.doEnv e hb hn hout)]
    simp
  · intro hout hread ht
    simp [GoRequest.DoCtx,
      GoRequest.doInternal_of_ok r s ctx env.doEnv resp hb hn hout,
      GoRequest.createRequest_request_eq, if_pos ht, hread]

/-- Witness for the amended C10 theorem at concrete requests. -/
theorem cancel_release_policy_witness :
    Event.cancelCall ∉ (exReqT5.DoStream exStore GoCtx.background c2EnvDone).2.2.2 ∧
    Event.cancelCall ∈ (exReqT5.DoCtx exStore GoCtx.background c10Env).2.2 :=
  ⟨(cancel_release_policy exReqT5 exStore GoCtx.background c10Env c2EnvDone
      (GoError.transportFailed "dial tcp: connection refused")
      (GoError.readFailed "connection reset") exResp rfl rfl).2.1,
   ((cancel_release_policy exReqT5 exStore GoCtx.background c10Env c2EnvDone
      (GoError.transportFailed "dial tcp: connection refused")
      (GoError.readFailed "connection reset") exResp rfl rfl).2.2 rfl rfl
      (by decide)).2⟩

end Pingo
